import Mathlib

/-!
Shallow embedding of the ledger core of `src/server.js` (Bank of Henzo).

State is the durable content of the two JSON collections (`users.json`,
`transactions.json`); every route handler re-reads both files, mutates an
in-memory copy and writes the whole collections back, so one request is one
pure function from durable state (plus the request and the oracle inputs:
generated ids, timestamps, allocator output, write success flags) to a
response and the next durable state.

JavaScript numbers are modelled as exact integers (`Int`); binary-float
rounding is outside the scope of this embedding.  JavaScript object mutation
through `users.find(...)` is modelled by `updateFirst`, which rewrites the
first list entry satisfying the predicate, exactly as the single found object
is mutated in place.  Fields that a route leaves `undefined` on a transaction
record are modelled with `Option`.
-/

set_option autoImplicit false

namespace Boa

/-- An account record as stored in `users.json` (`src/server.js`, seed at
lines 36-49 and registration at lines 120-131). -/
structure Account where
  id : String
  name : String
  email : String
  password : String
  role : String
  accountNumber : String
  balance : Int
  currency : String
  status : String
  createdAt : String
deriving DecidableEq

/-- A transaction record as stored in `transactions.json`.  The transfer
route (lines 223-239) fills the `sender*` fields and leaves `adminId` /
`adminName` absent; the fund route (lines 294-308) fills `adminId` /
`adminName` and leaves the `sender*` fields absent. -/
structure Transaction where
  id : String
  type : String
  senderId : Option String
  senderName : Option String
  senderEmail : Option String
  senderAccountNumber : Option String
  adminId : Option String
  adminName : Option String
  recipientId : String
  recipientName : String
  recipientEmail : String
  recipientAccountNumber : String
  amount : Int
  currency : String
  note : Option String
  status : String
  createdAt : String
deriving DecidableEq

/-- The durable state: the contents of `users.json` and `transactions.json`. -/
structure ServerState where
  users : List Account
  txs : List Transaction
deriving DecidableEq

/-- Mutate the first element satisfying `p` (the JS pattern
`const x = xs.find(p); x.field = ...`, which mutates the single found
object in place inside the array). -/
def updateFirst {α : Type} (p : α → Bool) (f : α → α) : List α → List α
  | [] => []
  | x :: xs => if p x then f x :: xs else x :: updateFirst p f xs

/-- Remove the first element satisfying `p` (the JS pattern
`xs.findIndex(p)` followed by `xs.splice(index, 1)`). -/
def removeFirst {α : Type} (p : α → Bool) : List α → List α
  | [] => []
  | x :: xs => if p x then xs else x :: removeFirst p xs

/-- `sender.balance -= amount` (line 218). -/
def debit (amount : Int) (u : Account) : Account :=
  { u with balance := u.balance - amount }

/-- `recipient.balance += amount` (lines 219 and 290). -/
def credit (amount : Int) (u : Account) : Account :=
  { u with balance := u.balance + amount }

/-- The hard-coded transaction authorization code checked at line 197. -/
def transferAuthCode : String := "45242769012"

/-- Body of `POST /api/transactions/send` (line 190). -/
structure TransferRequest where
  senderId : String
  recipientAccountNumber : String
  amount : Int
  note : Option String
  transactionCode : String
deriving DecidableEq

/-- Outcomes of `POST /api/transactions/send`: `ok` is the 200 response,
`invalidData` the 400 at line 193, `invalidCode` the 400 at line 198
(the spec taxonomy calls this branch `Unauthorized`), `senderNotFound` /
`recipientNotFound` the 404s, `insufficientFunds` the 400 at line 214 and
`persistenceFailure` the 500 at line 246. -/
inductive TransferOutcome where
  | ok (tx : Transaction)
  | invalidData
  | invalidCode
  | senderNotFound
  | recipientNotFound
  | insufficientFunds
  | persistenceFailure
deriving DecidableEq

/-- The transaction record built at lines 223-239.  The snapshot reads the
mutated sender and recipient objects, but the mutation touched only their
`balance`, which the record does not contain, so the pre-mutation accounts
give the identical record. -/
def mkTransferTx (req : TransferRequest) (sender recipient : Account)
    (txId ts : String) : Transaction :=
  { id := txId
    type := "transfer"
    senderId := some req.senderId
    senderName := some sender.name
    senderEmail := some sender.email
    senderAccountNumber := some sender.accountNumber
    adminId := none
    adminName := none
    recipientId := recipient.id
    recipientName := recipient.name
    recipientEmail := recipient.email
    recipientAccountNumber := req.recipientAccountNumber
    amount := req.amount
    currency := sender.currency
    note := req.note
    status := "completed"
    createdAt := ts }

/-- `POST /api/transactions/send` (lines 189-248).  `wU` and `wT` are the
success of `writeData(USERS_FILE, ...)` and `writeData(TRANSACTIONS_FILE,
...)`; the `&&` at line 243 short-circuits, so on a users-file failure the
transactions file is never written, while on a transactions-file failure the
users file has already been rewritten with the mutated balances. -/
def sendTransfer (st : ServerState) (req : TransferRequest) (txId ts : String)
    (wU wT : Bool) : TransferOutcome × ServerState :=
  if req.senderId = "" ∨ req.recipientAccountNumber = "" ∨ req.amount ≤ 0 then
    (.invalidData, st)
  else if req.transactionCode ≠ transferAuthCode then
    (.invalidCode, st)
  else
    match st.users.find? (fun u => u.id == req.senderId) with
    | none => (.senderNotFound, st)
    | some sender =>
      match st.users.find? (fun u => u.accountNumber == req.recipientAccountNumber) with
      | none => (.recipientNotFound, st)
      | some recipient =>
        if sender.balance < req.amount then
          (.insufficientFunds, st)
        else
          if wU then
            if wT then
              (.ok (mkTransferTx req sender recipient txId ts),
                ⟨updateFirst (fun u => u.accountNumber == req.recipientAccountNumber)
                    (credit req.amount)
                    (updateFirst (fun u => u.id == req.senderId) (debit req.amount)
                      st.users),
                  st.txs ++ [mkTransferTx req sender recipient txId ts]⟩)
            else
              (.persistenceFailure,
                ⟨updateFirst (fun u => u.accountNumber == req.recipientAccountNumber)
                    (credit req.amount)
                    (updateFirst (fun u => u.id == req.senderId) (debit req.amount)
                      st.users),
                  st.txs⟩)
          else
            (.persistenceFailure, st)

/-- Body of `POST /api/admin/fund-user` (line 271). -/
structure FundRequest where
  adminId : String
  accountNumber : String
  amount : Int
  note : Option String
deriving DecidableEq

/-- Outcomes of `POST /api/admin/fund-user`. -/
inductive FundOutcome where
  | ok (tx : Transaction)
  | invalidData
  | unauthorized
  | userNotFound
  | persistenceFailure
deriving DecidableEq

/-- `note || "Admin funding"` at line 305: JS `||` replaces both a missing
and an empty note. -/
def fundNote : Option String → String
  | none => "Admin funding"
  | some s => if s = "" then "Admin funding" else s

/-- The transaction record built at lines 294-308: `type` is `"admin-fund"`
and there is no `senderId` field. -/
def mkFundTx (req : FundRequest) (admin user : Account) (txId ts : String) :
    Transaction :=
  { id := txId
    type := "admin-fund"
    senderId := none
    senderName := none
    senderEmail := none
    senderAccountNumber := none
    adminId := some req.adminId
    adminName := some admin.name
    recipientId := user.id
    recipientName := user.name
    recipientEmail := user.email
    recipientAccountNumber := req.accountNumber
    amount := req.amount
    currency := user.currency
    note := some (fundNote req.note)
    status := "completed"
    createdAt := ts }

/-- `POST /api/admin/fund-user` (lines 270-317).  `Number.parseFloat` on an
already numeric amount is the identity. -/
def fundUser (st : ServerState) (req : FundRequest) (txId ts : String)
    (wU wT : Bool) : FundOutcome × ServerState :=
  if req.adminId = "" ∨ req.accountNumber = "" ∨ req.amount ≤ 0 then
    (.invalidData, st)
  else
    match st.users.find? (fun u => u.id == req.adminId && u.role == "admin") with
    | none => (.unauthorized, st)
    | some admin =>
      match st.users.find? (fun u => u.accountNumber == req.accountNumber) with
      | none => (.userNotFound, st)
      | some user =>
        if wU then
          if wT then
            (.ok (mkFundTx req admin user txId ts),
              ⟨updateFirst (fun u => u.accountNumber == req.accountNumber)
                  (credit req.amount) st.users,
                st.txs ++ [mkFundTx req admin user txId ts]⟩)
          else
            (.persistenceFailure,
              ⟨updateFirst (fun u => u.accountNumber == req.accountNumber)
                  (credit req.amount) st.users,
                st.txs⟩)
        else
          (.persistenceFailure, st)

/-- Body of `POST /api/auth/register` (line 102). -/
structure RegisterRequest where
  firstName : String
  lastName : String
  email : String
  password : String
deriving DecidableEq

/-- Outcomes of `POST /api/auth/register`. -/
inductive RegisterOutcome where
  | ok (user : Account)
  | invalidData
  | emailInUse
  | persistenceFailure
deriving DecidableEq

/-- The account record built at lines 120-131. -/
def mkNewUser (req : RegisterRequest) (newId acctNum ts : String) : Account :=
  { id := newId
    name := req.firstName ++ " " ++ req.lastName
    email := req.email
    password := req.password
    role := "user"
    accountNumber := acctNum
    balance := 0
    currency := "USD"
    status := "active"
    createdAt := ts }

/-- `POST /api/auth/register` (lines 101-141).  `acctNum` is the output of
the `do`-`while` allocator loop at lines 115-118; the loop exits exactly when
the sampled number is absent from the current user list, which the
reachability relation records as a side condition. -/
def register (st : ServerState) (req : RegisterRequest)
    (newId acctNum ts : String) (w : Bool) : RegisterOutcome × ServerState :=
  if req.firstName = "" ∨ req.lastName = "" ∨ req.email = "" ∨ req.password = "" then
    (.invalidData, st)
  else if st.users.any (fun u => u.email == req.email) then
    (.emailInUse, st)
  else
    if w then
      (.ok (mkNewUser req newId acctNum ts),
        ⟨st.users ++ [mkNewUser req newId acctNum ts], st.txs⟩)
    else
      (.persistenceFailure, st)

/-- Outcomes of `DELETE /api/users/:id`. -/
inductive DeleteOutcome where
  | ok
  | notFound
  | forbidden
  | persistenceFailure
deriving DecidableEq

/-- `DELETE /api/users/:id` (lines 165-186): `findIndex` plus
`splice(index, 1)` is find-first plus remove-first. -/
def deleteUser (st : ServerState) (targetId : String) (w : Bool) :
    DeleteOutcome × ServerState :=
  match st.users.find? (fun u => u.id == targetId) with
  | none => (.notFound, st)
  | some u =>
    if u.role == "admin" then
      (.forbidden, st)
    else if w then
      (.ok, ⟨removeFirst (fun v => v.id == targetId) st.users, st.txs⟩)
    else
      (.persistenceFailure, st)

/-- The seeded admin account written when `users.json` is first created
(lines 36-49). -/
def seedAdmin (ts : String) : Account :=
  { id := "admin-1"
    name := "Admin User"
    email := "admin@example.com"
    password := "admin123"
    role := "admin"
    accountNumber := "9876543210"
    balance := 500000000
    currency := "USD"
    status := "active"
    createdAt := ts }

/-- The seeded initial state: one admin account, empty transaction log
(lines 33-55). -/
def seedState (ts : String) : ServerState := ⟨[seedAdmin ts], []⟩

/-- States reachable from the seeded initial state by any sequence of
register, transfer, fund and delete requests, for arbitrary request bodies,
generated ids, timestamps and write outcomes.  The `registerStep` side
condition is the postcondition of the allocator loop at lines 115-118: the
loop only terminates with a number absent from the current list. -/
inductive Reachable : ServerState → Prop where
  | seed (ts : String) : Reachable (seedState ts)
  | registerStep (st : ServerState) (req : RegisterRequest)
      (newId acctNum ts : String) (w : Bool) (hst : Reachable st)
      (hfresh : ∀ u ∈ st.users, u.accountNumber ≠ acctNum) :
      Reachable (register st req newId acctNum ts w).2
  | transferStep (st : ServerState) (req : TransferRequest) (txId ts : String)
      (wU wT : Bool) (hst : Reachable st) :
      Reachable (sendTransfer st req txId ts wU wT).2
  | fundStep (st : ServerState) (req : FundRequest) (txId ts : String)
      (wU wT : Bool) (hst : Reachable st) :
      Reachable (fundUser st req txId ts wU wT).2
  | deleteStep (st : ServerState) (targetId : String) (w : Bool)
      (hst : Reachable st) :
      Reachable (deleteUser st targetId w).2

/-! ## Generic lemmas about first-match lookup, update and removal -/

section ListLemmas

variable {α β : Type}

theorem updateFirst_cons_pos {p : α → Bool} {f : α → α} {x : α} {xs : List α}
    (hx : p x = true) : updateFirst p f (x :: xs) = f x :: xs := by
  simp [updateFirst, hx]

theorem updateFirst_cons_neg {p : α → Bool} {f : α → α} {x : α} {xs : List α}
    (hx : p x = false) : updateFirst p f (x :: xs) = x :: updateFirst p f xs := by
  simp [updateFirst, hx]

theorem updateFirst_of_find?_none (p : α → Bool) (f : α → α) (us : List α)
    (h : us.find? p = none) : updateFirst p f us = us := by
  induction us with
  | nil => rfl
  | cons x xs ih =>
    rw [List.find?_cons] at h
    cases hx : p x with
    | true => rw [hx] at h; exact absurd h (by simp)
    | false =>
      rw [hx] at h
      rw [updateFirst_cons_neg hx, ih h]

theorem updateFirst_decomp (p : α → Bool) (f : α → α) (s : α) (us : List α)
    (hs : us.find? p = some s) :
    ∃ l₁ l₂, us = l₁ ++ s :: l₂ ∧ (∀ x ∈ l₁, p x = false) ∧
      updateFirst p f us = l₁ ++ f s :: l₂ := by
  induction us with
  | nil => simp at hs
  | cons x xs ih =>
    rw [List.find?_cons] at hs
    cases hx : p x with
    | true =>
      rw [hx] at hs
      obtain rfl : x = s := by simpa using hs
      exact ⟨[], xs, by simp, by simp, by simp [updateFirst_cons_pos hx]⟩
    | false =>
      rw [hx] at hs
      obtain ⟨l₁, l₂, h1, h2, h3⟩ := ih hs
      refine ⟨x :: l₁, l₂, by simp [h1], ?_, ?_⟩
      · intro y hy
        rcases List.mem_cons.1 hy with rfl | hy
        · exact hx
        · exact h2 y hy
      · rw [updateFirst_cons_neg hx, h3, List.cons_append]

theorem find?_updateFirst_same (p : α → Bool) (f : α → α) (us : List α)
    (hpf : ∀ x, p (f x) = p x) :
    (updateFirst p f us).find? p = (us.find? p).map f := by
  induction us with
  | nil => rfl
  | cons x xs ih =>
    cases hx : p x with
    | true =>
      rw [updateFirst_cons_pos hx,
        List.find?_cons_of_pos _ (by rw [hpf x]; exact hx),
        List.find?_cons_of_pos _ hx, Option.map_some']
    | false =>
      rw [updateFirst_cons_neg hx,
        List.find?_cons_of_neg _ (by simp [hx]),
        List.find?_cons_of_neg _ (by simp [hx]), ih]

theorem find?_pair_update (p q : α → Bool) (f g : α → α) (s r : α)
    (us : List α)
    (hpf : ∀ x, p (f x) = p x) (hqf : ∀ x, q (f x) = q x)
    (hpg : ∀ x, p (g x) = p x) (hqg : ∀ x, q (g x) = q x)
    (hs : us.find? p = some s) (hr : us.find? q = some r) (hsr : s ≠ r) :
    (updateFirst q g (updateFirst p f us)).find? p = some (f s) ∧
    (updateFirst q g (updateFirst p f us)).find? q = some (g r) := by
  induction us with
  | nil => simp at hs
  | cons x xs ih =>
    cases hx : p x with
    | true =>
      obtain rfl : x = s := by
        rw [List.find?_cons_of_pos _ hx] at hs; simpa using hs
      have hqx : q x = false := by
        cases hq : q x with
        | false => rfl
        | true =>
          rw [List.find?_cons_of_pos _ hq] at hr
          exact absurd (by simpa using hr) hsr
      rw [List.find?_cons_of_neg _ (by simp [hqx])] at hr
      rw [updateFirst_cons_pos hx,
        updateFirst_cons_neg (show q (f x) = false by rw [hqf x]; exact hqx)]
      constructor
      · rw [List.find?_cons_of_pos _ (by rw [hpf x]; exact hx)]
      · rw [List.find?_cons_of_neg _ (by simp [hqf x, hqx]),
          find?_updateFirst_same q g xs hqg, hr, Option.map_some']
    | false =>
      rw [List.find?_cons_of_neg _ (by simp [hx])] at hs
      cases hqx : q x with
      | true =>
        obtain rfl : x = r := by
          rw [List.find?_cons_of_pos _ hqx] at hr; simpa using hr
        rw [updateFirst_cons_neg hx, updateFirst_cons_pos hqx]
        constructor
        · rw [List.find?_cons_of_neg _ (by simp [hpg x, hx]),
            find?_updateFirst_same p f xs hpf, hs, Option.map_some']
        · rw [List.find?_cons_of_pos _ (by rw [hqg x]; exact hqx)]
      | false =>
        rw [List.find?_cons_of_neg _ (by simp [hqx])] at hr
        obtain ⟨ih1, ih2⟩ := ih hs hr
        rw [updateFirst_cons_neg hx, updateFirst_cons_neg hqx]
        constructor
        · rw [List.find?_cons_of_neg _ (by simp [hx])]; exact ih1
        · rw [List.find?_cons_of_neg _ (by simp [hqx])]; exact ih2

theorem updateFirst_pair_decomp (p q : α → Bool) (f g : α → α) (s r : α)
    (us : List α) (hqf : ∀ x, q (f x) = q x)
    (hs : us.find? p = some s) (hr : us.find? q = some r) (hsr : s ≠ r) :
    ∃ a b c,
      (us = a ++ s :: (b ++ r :: c) ∧
        updateFirst q g (updateFirst p f us) = a ++ f s :: (b ++ g r :: c)) ∨
      (us = a ++ r :: (b ++ s :: c) ∧
        updateFirst q g (updateFirst p f us) = a ++ g r :: (b ++ f s :: c)) := by
  induction us with
  | nil => simp at hs
  | cons x xs ih =>
    cases hx : p x with
    | true =>
      obtain rfl : x = s := by
        rw [List.find?_cons_of_pos _ hx] at hs; simpa using hs
      have hqx : q x = false := by
        cases hq : q x with
        | false => rfl
        | true =>
          rw [List.find?_cons_of_pos _ hq] at hr
          exact absurd (by simpa using hr) hsr
      rw [List.find?_cons_of_neg _ (by simp [hqx])] at hr
      obtain ⟨l₁, l₂, h1, _, h3⟩ := updateFirst_decomp q g r xs hr
      refine ⟨[], l₁, l₂, Or.inl ⟨by simp [h1], ?_⟩⟩
      rw [updateFirst_cons_pos hx,
        updateFirst_cons_neg (show q (f x) = false by rw [hqf x]; exact hqx),
        h3, List.nil_append]
    | false =>
      rw [List.find?_cons_of_neg _ (by simp [hx])] at hs
      cases hqx : q x with
      | true =>
        obtain rfl : x = r := by
          rw [List.find?_cons_of_pos _ hqx] at hr; simpa using hr
        obtain ⟨l₁, l₂, h1, _, h3⟩ := updateFirst_decomp p f s xs hs
        refine ⟨[], l₁, l₂, Or.inr ⟨by simp [h1], ?_⟩⟩
        rw [updateFirst_cons_neg hx, updateFirst_cons_pos hqx, h3,
          List.nil_append]
      | false =>
        rw [List.find?_cons_of_neg _ (by simp [hqx])] at hr
        obtain ⟨a, b, c, hcase⟩ := ih hs hr
        refine ⟨x :: a, b, c, ?_⟩
        rcases hcase with ⟨h1, h2⟩ | ⟨h1, h2⟩
        · exact Or.inl ⟨by simp [h1], by
            rw [updateFirst_cons_neg hx, updateFirst_cons_neg hqx, h2,
              List.cons_append]⟩
        · exact Or.inr ⟨by simp [h1], by
            rw [updateFirst_cons_neg hx, updateFirst_cons_neg hqx, h2,
              List.cons_append]⟩

theorem updateFirst_pair_self (p q : α → Bool) (f g : α → α) (s : α)
    (us : List α) (hqf : ∀ x, q (f x) = q x) (hgf : g (f s) = s)
    (hs : us.find? p = some s) (hr : us.find? q = some s) :
    updateFirst q g (updateFirst p f us) = us := by
  induction us with
  | nil => rfl
  | cons x xs ih =>
    cases hx : p x with
    | true =>
      obtain rfl : x = s := by
        rw [List.find?_cons_of_pos _ hx] at hs; simpa using hs
      have hqs : q x = true := List.find?_some hr
      rw [updateFirst_cons_pos hx,
        updateFirst_cons_pos (show q (f x) = true by rw [hqf x]; exact hqs), hgf]
    | false =>
      rw [List.find?_cons_of_neg _ (by simp [hx])] at hs
      have hqx : q x = false := by
        cases hq : q x with
        | false => rfl
        | true =>
          rw [List.find?_cons_of_pos _ hq] at hr
          obtain rfl : x = s := by simpa using hr
          exact absurd (List.find?_some hs) (by simp [hx])
      rw [List.find?_cons_of_neg _ (by simp [hqx])] at hr
      rw [updateFirst_cons_neg hx, updateFirst_cons_neg hqx, ih hs hr]

theorem mem_updateFirst (p : α → Bool) (f : α → α) (us : List α) (u : α)
    (hu : u ∈ updateFirst p f us) : u ∈ us ∨ ∃ v ∈ us, u = f v := by
  induction us with
  | nil => simp [updateFirst] at hu
  | cons x xs ih =>
    cases hx : p x with
    | true =>
      rw [updateFirst_cons_pos hx] at hu
      rcases List.mem_cons.1 hu with rfl | hu
      · exact Or.inr ⟨x, List.mem_cons_self x xs, rfl⟩
      · exact Or.inl (List.mem_cons_of_mem x hu)
    | false =>
      rw [updateFirst_cons_neg hx] at hu
      rcases List.mem_cons.1 hu with rfl | hu
      · exact Or.inl (List.mem_cons_self u xs)
      · rcases ih hu with h | ⟨v, hv, rfl⟩
        · exact Or.inl (List.mem_cons_of_mem x h)
        · exact Or.inr ⟨v, List.mem_cons_of_mem x hv, rfl⟩

theorem mem_updateFirst_find? (p : α → Bool) (f : α → α) (s : α) (us : List α)
    (hs : us.find? p = some s) (u : α) (hu : u ∈ updateFirst p f us) :
    u ∈ us ∨ u = f s := by
  obtain ⟨l₁, l₂, h1, _, h3⟩ := updateFirst_decomp p f s us hs
  rw [h3] at hu
  rw [h1]
  rcases List.mem_append.1 hu with h | h
  · exact Or.inl (List.mem_append.2 (Or.inl h))
  · rcases List.mem_cons.1 h with rfl | h
    · exact Or.inr rfl
    · exact Or.inl (List.mem_append.2 (Or.inr (List.mem_cons_of_mem s h)))

theorem map_updateFirst (m : α → β) (p : α → Bool) (f : α → α)
    (hmf : ∀ x, m (f x) = m x) (us : List α) :
    (updateFirst p f us).map m = us.map m := by
  induction us with
  | nil => rfl
  | cons x xs ih =>
    cases hx : p x with
    | true => simp [updateFirst, hx, hmf x]
    | false => simp [updateFirst, hx, ih]

theorem removeFirst_sublist (p : α → Bool) (us : List α) :
    List.Sublist (removeFirst p us) us := by
  induction us with
  | nil => simp [removeFirst]
  | cons x xs ih =>
    cases hx : p x with
    | true => simp [removeFirst, hx]
    | false => simpa [removeFirst, hx] using ih.cons₂ x

theorem nodup_append_single {l : List β} {a : β} (hl : l.Nodup)
    (ha : a ∉ l) : (l ++ [a]).Nodup := by
  induction l with
  | nil => simp
  | cons x xs ih =>
    rw [List.nodup_cons] at hl
    rw [List.cons_append, List.nodup_cons]
    refine ⟨?_, ih hl.2 (fun h => ha (List.mem_cons_of_mem x h))⟩
    intro hx
    rcases List.mem_append.1 hx with h | h
    · exact hl.1 h
    · rw [List.mem_singleton] at h
      exact ha (by rw [← h]; exact List.mem_cons_self x xs)

end ListLemmas

/-! ## Inversion of successful operations -/

/-- A successful transfer response happened exactly when every check passed
and both durable writes succeeded; it determines the response transaction
and the next state. -/
theorem sendTransfer_ok_inv (st : ServerState) (req : TransferRequest)
    (txId ts : String) (wU wT : Bool) (tx : Transaction) (st' : ServerState)
    (hok : sendTransfer st req txId ts wU wT = (.ok tx, st')) :
    ∃ sender recipient,
      st.users.find? (fun u => u.id == req.senderId) = some sender ∧
      st.users.find? (fun u => u.accountNumber == req.recipientAccountNumber) =
        some recipient ∧
      ¬(req.senderId = "" ∨ req.recipientAccountNumber = "" ∨ req.amount ≤ 0) ∧
      req.transactionCode = transferAuthCode ∧
      ¬ sender.balance < req.amount ∧ wU = true ∧ wT = true ∧
      tx = mkTransferTx req sender recipient txId ts ∧
      st' = ⟨updateFirst (fun u => u.accountNumber == req.recipientAccountNumber)
          (credit req.amount)
          (updateFirst (fun u => u.id == req.senderId) (debit req.amount)
            st.users),
        st.txs ++ [tx]⟩ := by
  unfold sendTransfer at hok
  split at hok
  · simp at hok
  · next hvalid =>
    split at hok
    · simp at hok
    · next hcode =>
      split at hok
      · simp at hok
      · next sender hsender =>
        split at hok
        · simp at hok
        · next recipient hrecipient =>
          split at hok
          · simp at hok
          · next hbal =>
            split at hok
            · next hwU =>
              split at hok
              · next hwT =>
                obtain ⟨h1, h2⟩ := Prod.mk.injEq .. ▸ hok
                have htx := TransferOutcome.ok.inj h1
                refine ⟨sender, recipient, hsender, hrecipient, hvalid,
                  not_not.1 hcode, hbal, hwU, hwT, htx.symm, ?_⟩
                rw [← h2, htx]
              · simp at hok
            · simp at hok

/-- A successful fund response happened exactly when every check passed and
both durable writes succeeded; it determines the response transaction and
the next state. -/
theorem fundUser_ok_inv (st : ServerState) (req : FundRequest)
    (txId ts : String) (wU wT : Bool) (tx : Transaction) (st' : ServerState)
    (hok : fundUser st req txId ts wU wT = (.ok tx, st')) :
    ∃ admin user,
      st.users.find? (fun u => u.id == req.adminId && u.role == "admin") =
        some admin ∧
      st.users.find? (fun u => u.accountNumber == req.accountNumber) =
        some user ∧
      ¬(req.adminId = "" ∨ req.accountNumber = "" ∨ req.amount ≤ 0) ∧
      wU = true ∧ wT = true ∧
      tx = mkFundTx req admin user txId ts ∧
      st' = ⟨updateFirst (fun u => u.accountNumber == req.accountNumber)
          (credit req.amount) st.users,
        st.txs ++ [tx]⟩ := by
  unfold fundUser at hok
  split at hok
  · simp at hok
  · next hvalid =>
    split at hok
    · simp at hok
    · next admin hadmin =>
      split at hok
      · simp at hok
      · next user huser =>
        split at hok
        · next hwU =>
          split at hok
          · next hwT =>
            obtain ⟨h1, h2⟩ := Prod.mk.injEq .. ▸ hok
            have htx := FundOutcome.ok.inj h1
            refine ⟨admin, user, hadmin, huser, hvalid, hwU, hwT, htx.symm, ?_⟩
            rw [← h2, htx]
          · simp at hok
        · simp at hok

/-! ## Concrete data used by witnesses and counterexamples -/

/-- A fixed timestamp for concrete runs. -/
def ts0 : String := "2024-01-01T00:00:00.000Z"

/-- A fixed generated transaction id for concrete runs. -/
def txId1 : String := "tx-0001"

/-- A registered user account (balance 0 as at registration). -/
def exUser : Account :=
  { id := "user-1"
    name := "Wendy User"
    email := "wendy@example.com"
    password := "pw1"
    role := "user"
    accountNumber := "1234567890"
    balance := 0
    currency := "USD"
    status := "active"
    createdAt := ts0 }

/-- Seeded admin plus one registered user, empty transaction log. -/
def exState : ServerState := ⟨[seedAdmin ts0, exUser], []⟩

/-- Transfer of 40 from the seeded admin to the user, correct code. -/
def exReq : TransferRequest :=
  { senderId := "admin-1"
    recipientAccountNumber := "1234567890"
    amount := 40
    note := none
    transactionCode := transferAuthCode }

/-- The transaction record produced by the concrete transfer `exReq`. -/
def exTx : Transaction := mkTransferTx exReq (seedAdmin ts0) exUser txId1 ts0

/-- The state after the concrete transfer `exReq` with both writes ok. -/
def exStateAfter : ServerState := (sendTransfer exState exReq txId1 ts0 true true).2

/-! ## C1: conservation of the two balances on a successful transfer -/

/-- C1: for every transfer request that completes successfully, with the
sender resolved by id, the recipient resolved by account number, and the two
resolved accounts distinct, the sender is debited by exactly the requested
amount, the recipient is credited by exactly the requested amount, and the
sum of the two balances after the operation equals the sum before it. -/
theorem c1_transfer_conservation (st : ServerState) (req : TransferRequest)
    (txId ts : String) (wU wT : Bool) (s r : Account) (tx : Transaction)
    (st' : ServerState)
    (hs : st.users.find? (fun u => u.id == req.senderId) = some s)
    (hr : st.users.find?
      (fun u => u.accountNumber == req.recipientAccountNumber) = some r)
    (hne : s.id ≠ r.id)
    (hok : sendTransfer st req txId ts wU wT = (.ok tx, st')) :
    ∃ s' r',
      st'.users.find? (fun u => u.id == req.senderId) = some s' ∧
      st'.users.find?
        (fun u => u.accountNumber == req.recipientAccountNumber) = some r' ∧
      s'.balance = s.balance - req.amount ∧
      r'.balance = r.balance + req.amount ∧
      s'.balance + r'.balance = s.balance + r.balance := by
  obtain ⟨-, -, -, -, -, -, -, -, -, -, hst'⟩ :=
    sendTransfer_ok_inv st req txId ts wU wT tx st' hok
  have hpair := find?_pair_update (fun u => u.id == req.senderId)
    (fun u => u.accountNumber == req.recipientAccountNumber)
    (debit req.amount) (credit req.amount) s r st.users
    (fun _ => rfl) (fun _ => rfl) (fun _ => rfl) (fun _ => rfl) hs hr
    (fun h => hne (congrArg Account.id h))
  subst hst'
  refine ⟨debit req.amount s, credit req.amount r, hpair.1, hpair.2, rfl, rfl, ?_⟩
  show s.balance - req.amount + (r.balance + req.amount) =
    s.balance + r.balance
  omega

/-- Witness for C1: the seeded admin sends 40 to a registered user. -/
theorem c1_witness :
    ∃ s' r',
      exStateAfter.users.find? (fun u => u.id == exReq.senderId) = some s' ∧
      exStateAfter.users.find?
        (fun u => u.accountNumber == exReq.recipientAccountNumber) = some r' ∧
      s'.balance = (seedAdmin ts0).balance - exReq.amount ∧
      r'.balance = exUser.balance + exReq.amount ∧
      s'.balance + r'.balance = (seedAdmin ts0).balance + exUser.balance :=
  c1_transfer_conservation exState exReq txId1 ts0 true true (seedAdmin ts0)
    exUser exTx exStateAfter (by decide) (by decide) (by decide) (by decide)

/-- Forward success equation for the transfer route: when every check passes
and both writes succeed, the route returns the built transaction and the
debited-then-credited user list. -/
theorem sendTransfer_ok_eq (st : ServerState) (req : TransferRequest)
    (txId ts : String) (sender recipient : Account)
    (hs : st.users.find? (fun u => u.id == req.senderId) = some sender)
    (hr : st.users.find?
      (fun u => u.accountNumber == req.recipientAccountNumber) =
      some recipient)
    (hvalid : ¬(req.senderId = "" ∨ req.recipientAccountNumber = "" ∨
      req.amount ≤ 0))
    (hcode : req.transactionCode = transferAuthCode)
    (hbal : ¬ sender.balance < req.amount) :
    sendTransfer st req txId ts true true =
      (.ok (mkTransferTx req sender recipient txId ts),
        ⟨updateFirst (fun u => u.accountNumber == req.recipientAccountNumber)
            (credit req.amount)
            (updateFirst (fun u => u.id == req.senderId) (debit req.amount)
              st.users),
          st.txs ++ [mkTransferTx req sender recipient txId ts]⟩) := by
  unfold sendTransfer
  split
  · next h => exact absurd h hvalid
  · split
    · next h => exact absurd hcode h
    · split
      · next h => rw [h] at hs; exact Option.noConfusion hs
      · next sender1 hsender1 =>
        rw [hs] at hsender1
        obtain rfl : sender = sender1 := Option.some.inj hsender1
        split
        · next h => rw [h] at hr; exact Option.noConfusion hr
        · next recipient1 hrecipient1 =>
          rw [hr] at hrecipient1
          obtain rfl : recipient = recipient1 := Option.some.inj hrecipient1
          split
          · next h => exact absurd h hbal
          · rfl

/-! ## C10: frame condition of a successful transfer -/

/-- C10: a successful transfer between two distinct resolved accounts leaves
every account other than the sender and the recipient unchanged, changes the
sender and the recipient only by the balance update recorded in `debit` and
`credit` (every other field is copied), and extends the transaction log by
exactly one entry, leaving all previously appended entries unchanged. -/
theorem c10_transfer_frame (st : ServerState) (req : TransferRequest)
    (txId ts : String) (wU wT : Bool) (s r : Account) (tx : Transaction)
    (st' : ServerState)
    (hs : st.users.find? (fun u => u.id == req.senderId) = some s)
    (hr : st.users.find?
      (fun u => u.accountNumber == req.recipientAccountNumber) = some r)
    (hne : s.id ≠ r.id)
    (hok : sendTransfer st req txId ts wU wT = (.ok tx, st')) :
    st'.txs = st.txs ++ [tx] ∧
    ∃ a b c,
      (st.users = a ++ s :: (b ++ r :: c) ∧
        st'.users =
          a ++ debit req.amount s :: (b ++ credit req.amount r :: c)) ∨
      (st.users = a ++ r :: (b ++ s :: c) ∧
        st'.users =
          a ++ credit req.amount r :: (b ++ debit req.amount s :: c)) := by
  obtain ⟨-, -, -, -, -, -, -, -, -, -, hst'⟩ :=
    sendTransfer_ok_inv st req txId ts wU wT tx st' hok
  subst hst'
  exact ⟨rfl, updateFirst_pair_decomp (fun u => u.id == req.senderId)
    (fun u => u.accountNumber == req.recipientAccountNumber)
    (debit req.amount) (credit req.amount) s r st.users (fun _ => rfl) hs hr
    (fun h => hne (congrArg Account.id h))⟩

/-- Witness for C10 at the concrete transfer from the seeded admin. -/
theorem c10_witness :
    exStateAfter.txs = exState.txs ++ [exTx] ∧
    ∃ a b c,
      (exState.users = a ++ seedAdmin ts0 :: (b ++ exUser :: c) ∧
        exStateAfter.users = a ++ debit exReq.amount (seedAdmin ts0) ::
          (b ++ credit exReq.amount exUser :: c)) ∨
      (exState.users = a ++ exUser :: (b ++ seedAdmin ts0 :: c) ∧
        exStateAfter.users = a ++ credit exReq.amount exUser ::
          (b ++ debit exReq.amount (seedAdmin ts0) :: c)) :=
  c10_transfer_frame exState exReq txId1 ts0 true true (seedAdmin ts0) exUser
    exTx exStateAfter (by decide) (by decide) (by decide) (by decide)

/-! ## C7: wrong authorization code is rejected before any state access -/

/-- C7: a transfer request with a positive amount, non-empty sender id and
recipient account number, but a transaction code different from the
configured value, fails with the invalid-code error (the spec taxonomy's
`Unauthorized`) for EVERY state, returning that state unchanged: the outcome
does not depend on the stored accounts or transactions at all, and no
transaction is created. -/
theorem c7_wrong_code_rejected (st : ServerState) (req : TransferRequest)
    (txId ts : String) (wU wT : Bool)
    (hsid : req.senderId ≠ "") (hracct : req.recipientAccountNumber ≠ "")
    (hamt : 0 < req.amount)
    (hcode : req.transactionCode ≠ transferAuthCode) :
    sendTransfer st req txId ts wU wT = (.invalidCode, st) := by
  unfold sendTransfer
  rw [if_neg (by push_neg; exact ⟨hsid, hracct, hamt⟩), if_pos hcode]

/-- A transfer request identical to `exReq` except for a wrong code. -/
def badCodeReq : TransferRequest :=
  { exReq with transactionCode := "00000000000" }

/-- Witness for C7: the wrong-code request leaves the concrete state
untouched. -/
theorem c7_witness :
    sendTransfer exState badCodeReq txId1 ts0 true true =
      (.invalidCode, exState) :=
  c7_wrong_code_rejected exState badCodeReq txId1 ts0 true true (by decide)
    (by decide) (by decide) (by decide)

/-! ## C8: admin accounts are never deletable -/

/-- C8: for every delete request whose target id resolves to an account with
role `admin`, the route fails with `Forbidden` and returns the state
entirely unchanged, for any write outcome. -/
theorem c8_admin_not_deletable (st : ServerState) (targetId : String)
    (w : Bool) (u : Account)
    (hu : st.users.find? (fun v => v.id == targetId) = some u)
    (hadmin : u.role = "admin") :
    deleteUser st targetId w = (.forbidden, st) := by
  unfold deleteUser
  rw [hu]
  simp [hadmin]

/-- The id of the seeded admin account. -/
def adminId1 : String := "admin-1"

/-- Witness for C8: deleting the seeded admin is forbidden and leaves the
seeded state unchanged. -/
theorem c8_witness :
    deleteUser (seedState ts0) adminId1 true = (.forbidden, seedState ts0) :=
  c8_admin_not_deletable (seedState ts0) adminId1 true (seedAdmin ts0)
    (by decide) (by decide)

/-! ## C4: self-transfer

The route has no sender-equals-recipient check at all (lines 201-247): when
`senderId` and `recipientAccountNumber` resolve to the same account, the
debit and the credit are applied to the same stored object, so the transfer
completes successfully, the account list is left exactly unchanged, and one
`transfer` transaction is appended. -/

/-- A self-transfer: the seeded admin sends 40 to its own account number. -/
def selfReq : TransferRequest :=
  { senderId := "admin-1"
    recipientAccountNumber := "9876543210"
    amount := 40
    note := none
    transactionCode := transferAuthCode }

/-- The transaction appended by the concrete self-transfer. -/
def selfTx : Transaction :=
  mkTransferTx selfReq (seedAdmin ts0) (seedAdmin ts0) txId1 ts0

/-- C4 counterexample: the concrete self-transfer does NOT fail — it returns
success, and it appends a transaction, contradicting the claim that it fails
with `SenderEqualsRecipient` with no transaction appended. -/
theorem c4_counterexample :
    (sendTransfer (seedState ts0) selfReq txId1 ts0 true true).1 =
      TransferOutcome.ok selfTx ∧
    (sendTransfer (seedState ts0) selfReq txId1 ts0 true true).2.users =
      (seedState ts0).users ∧
    (sendTransfer (seedState ts0) selfReq txId1 ts0 true true).2.txs =
      (seedState ts0).txs ++ [selfTx] := by
  decide

/-- C4 amended: when the sender id and the recipient account number resolve
to the same account, the transfer is NOT rejected: provided the generic
checks pass (non-empty fields, positive amount, correct code, sufficient
balance) and the writes succeed, it completes successfully, the account
store is exactly unchanged (the debit and the credit cancel on the single
shared record), and exactly one transfer transaction is appended. -/
theorem c4_self_transfer_not_rejected (st : ServerState)
    (req : TransferRequest) (txId ts : String) (s : Account)
    (hs : st.users.find? (fun u => u.id == req.senderId) = some s)
    (hr : st.users.find?
      (fun u => u.accountNumber == req.recipientAccountNumber) = some s)
    (hsid : req.senderId ≠ "") (hracct : req.recipientAccountNumber ≠ "")
    (hamt : 0 < req.amount)
    (hcode : req.transactionCode = transferAuthCode)
    (hbal : ¬ s.balance < req.amount) :
    sendTransfer st req txId ts true true =
      (.ok (mkTransferTx req s s txId ts),
        ⟨st.users, st.txs ++ [mkTransferTx req s s txId ts]⟩) := by
  rw [sendTransfer_ok_eq st req txId ts s s hs hr
    (by push_neg; exact ⟨hsid, hracct, hamt⟩) hcode hbal]
  rw [updateFirst_pair_self (fun u => u.id == req.senderId)
    (fun u => u.accountNumber == req.recipientAccountNumber)
    (debit req.amount) (credit req.amount) s st.users (fun _ => rfl)
    (by show { s with balance := s.balance - req.amount + req.amount } = s
        rw [Int.sub_add_cancel]) hs hr]

/-- Witness for the amended C4 at the concrete admin self-transfer. -/
theorem c4_witness :
    sendTransfer (seedState ts0) selfReq txId1 ts0 true true =
      (.ok selfTx, ⟨(seedState ts0).users, (seedState ts0).txs ++ [selfTx]⟩) :=
  c4_self_transfer_not_rejected (seedState ts0) selfReq txId1 ts0
    (seedAdmin ts0) (by decide) (by decide) (by decide) (by decide)
    (by decide) (by decide) (by decide)

/-! ## C6: disabled accounts

The transfer route never reads the `status` field (lines 201-219): a
disabled account participates in transfers, as sender and as recipient,
exactly like an active one. -/

/-- A disabled account holding 100. -/
def disUser1 : Account :=
  { id := "user-d1"
    name := "Dan Disabled"
    email := "dan@example.com"
    password := "pw2"
    role := "user"
    accountNumber := "2222222222"
    balance := 100
    currency := "USD"
    status := "disabled"
    createdAt := ts0 }

/-- A second disabled account. -/
def disUser2 : Account :=
  { id := "user-d2"
    name := "Dora Disabled"
    email := "dora@example.com"
    password := "pw3"
    role := "user"
    accountNumber := "3333333333"
    balance := 5
    currency := "USD"
    status := "disabled"
    createdAt := ts0 }

/-- A state whose only non-admin accounts are both disabled. -/
def disState : ServerState := ⟨[seedAdmin ts0, disUser1, disUser2], []⟩

/-- A transfer of 40 from one disabled account to the other. -/
def disReq : TransferRequest :=
  { senderId := "user-d1"
    recipientAccountNumber := "3333333333"
    amount := 40
    note := none
    transactionCode := transferAuthCode }

/-- C6 counterexample: a transfer whose sender AND recipient are both
disabled completes successfully and moves the money, contradicting the claim
that a disabled account can participate neither as sender nor as
recipient. -/
theorem c6_counterexample :
    (sendTransfer disState disReq txId1 ts0 true true).1 =
      TransferOutcome.ok (mkTransferTx disReq disUser1 disUser2 txId1 ts0) ∧
    (sendTransfer disState disReq txId1 ts0 true true).2.users.map
      (fun u => u.balance) = [500000000, 60, 45] := by
  decide

/-- C6 amended: the transfer route never consults `status`; a transfer whose
resolved sender or recipient is disabled is NOT rejected on that ground and
completes successfully whenever the amount, code, lookup and funds checks
pass and the writes succeed. -/
theorem c6_disabled_not_rejected (st : ServerState) (req : TransferRequest)
    (txId ts : String) (s r : Account)
    (hs : st.users.find? (fun u => u.id == req.senderId) = some s)
    (hr : st.users.find?
      (fun u => u.accountNumber == req.recipientAccountNumber) = some r)
    (hdis : s.status = "disabled" ∨ r.status = "disabled")
    (hsid : req.senderId ≠ "") (hracct : req.recipientAccountNumber ≠ "")
    (hamt : 0 < req.amount)
    (hcode : req.transactionCode = transferAuthCode)
    (hbal : ¬ s.balance < req.amount) :
    (sendTransfer st req txId ts true true).1 =
      .ok (mkTransferTx req s r txId ts) := by
  rw [sendTransfer_ok_eq st req txId ts s r hs hr
    (by push_neg; exact ⟨hsid, hracct, hamt⟩) hcode hbal]

/-- Witness for the amended C6 at the concrete disabled-to-disabled
transfer. -/
theorem c6_witness :
    (sendTransfer disState disReq txId1 ts0 true true).1 =
      .ok (mkTransferTx disReq disUser1 disUser2 txId1 ts0) :=
  c6_disabled_not_rejected disState disReq txId1 ts0 disUser1 disUser2
    (by decide) (by decide) (by decide) (by decide) (by decide) (by decide)
    (by decide) (by decide)

/-! ## C5: shape of the fund (mint) transaction

The fund route builds its transaction with `type: "admin-fund"` (line 296),
not `"mint"`, so the claim's `type = "mint"` is refuted; the rest of the
claim (exactly one appended transaction, no `senderId` field, target
credited by the amount) holds. -/

/-- The seeded admin funds the registered user with 500. -/
def exFundReq : FundRequest :=
  { adminId := "admin-1"
    accountNumber := "1234567890"
    amount := 500
    note := none }

/-- The transaction appended by the concrete fund operation. -/
def exFundTx : Transaction := mkFundTx exFundReq (seedAdmin ts0) exUser txId1 ts0

/-- The state after the concrete fund operation with both writes ok. -/
def exFundStateAfter : ServerState :=
  (fundUser exState exFundReq txId1 ts0 true true).2

/-- C5 counterexample: the concrete successful fund operation appends a
transaction whose `type` is `"admin-fund"`, not `"mint"`, contradicting the
claim that every successful fund appends a transaction with type
`"mint"`. -/
theorem c5_counterexample :
    (fundUser exState exFundReq txId1 ts0 true true).1 =
      FundOutcome.ok exFundTx ∧
    exFundTx.type = "admin-fund" ∧ exFundTx.type ≠ "mint" := by
  decide

/-- C5 amended: every successful fund operation appends exactly one
transaction, whose `type` field is `"admin-fund"` and which has no
`senderId` field, crediting the target account by the requested amount. -/
theorem c5_fund_tx_shape (st : ServerState) (req : FundRequest)
    (txId ts : String) (wU wT : Bool) (a u : Account) (tx : Transaction)
    (st' : ServerState)
    (ha : st.users.find? (fun v => v.id == req.adminId && v.role == "admin") =
      some a)
    (hu : st.users.find? (fun v => v.accountNumber == req.accountNumber) =
      some u)
    (hok : fundUser st req txId ts wU wT = (.ok tx, st')) :
    st'.txs = st.txs ++ [tx] ∧
    tx.type = "admin-fund" ∧
    tx.senderId = none ∧
    tx.amount = req.amount ∧
    ∃ u', st'.users.find? (fun v => v.accountNumber == req.accountNumber) =
        some u' ∧
      u'.balance = u.balance + req.amount := by
  obtain ⟨a1, u1, ha1, hu1, -, -, -, htx, hst'⟩ :=
    fundUser_ok_inv st req txId ts wU wT tx st' hok
  rw [hu] at hu1
  obtain rfl : u = u1 := Option.some.inj hu1
  subst htx
  subst hst'
  refine ⟨rfl, rfl, rfl, rfl, credit req.amount u, ?_, rfl⟩
  rw [find?_updateFirst_same (fun v => v.accountNumber == req.accountNumber)
    (credit req.amount) st.users (fun _ => rfl), hu]
  rfl

/-- Witness for the amended C5 at the concrete fund operation. -/
theorem c5_witness :
    exFundStateAfter.txs = exState.txs ++ [exFundTx] ∧
    exFundTx.type = "admin-fund" ∧
    exFundTx.senderId = none ∧
    exFundTx.amount = exFundReq.amount ∧
    ∃ u', exFundStateAfter.users.find?
        (fun v => v.accountNumber == exFundReq.accountNumber) = some u' ∧
      u'.balance = exUser.balance + exFundReq.amount :=
  c5_fund_tx_shape exState exFundReq txId1 ts0 true true (seedAdmin ts0)
    exUser exFundTx exFundStateAfter (by decide) (by decide) (by decide)

/-! ## C3: atomicity of persistence

The claim states that on a persistence failure no balance change and no
appended transaction is observable.  The code violates it: the `&&` at line
243 writes the users file first, so when that write succeeds and the
transactions-file write fails, the mutated balances are durably observable
while the transaction is missing — exactly the partial commit the claim (and
the spec, which calls the missing rollback a defect of the source) rules
out. -/

/-- C3: concrete demonstration of the partial commit.  Running the concrete
transfer with the users-file write succeeding and the transactions-file
write failing reports `persistenceFailure`, yet the resulting durable state
has the debited and credited balances (admin 499999960, user 40 instead of
500000000 and 0) with no transaction appended. -/
theorem c3_partial_commit_observable :
    (sendTransfer exState exReq txId1 ts0 true false).1 =
      TransferOutcome.persistenceFailure ∧
    (sendTransfer exState exReq txId1 ts0 true false).2.txs = exState.txs ∧
    (sendTransfer exState exReq txId1 ts0 true false).2.users.map
      (fun u => u.balance) = [499999960, 40] ∧
    exState.users.map (fun u => u.balance) = [500000000, 0] := by
  decide

/-! ## C2: non-negativity of balances in all reachable states -/

/-- The two balance updates of a transfer keep every balance non-negative:
the debited account is the first id match, which is exactly the account the
insufficient-funds check inspected, and the credit adds a positive amount. -/
theorem transfer_users_nonneg (users : List Account) (req : TransferRequest)
    (sender : Account)
    (hsender : users.find? (fun u => u.id == req.senderId) = some sender)
    (hbal : ¬ sender.balance < req.amount) (hamt : 0 < req.amount)
    (h : ∀ u ∈ users, 0 ≤ u.balance) :
    ∀ u ∈ updateFirst (fun u => u.accountNumber == req.recipientAccountNumber)
        (credit req.amount)
        (updateFirst (fun u => u.id == req.senderId) (debit req.amount) users),
      0 ≤ u.balance := by
  have h1 : ∀ v ∈ updateFirst (fun u => u.id == req.senderId)
      (debit req.amount) users, 0 ≤ v.balance := by
    intro v hv
    rcases mem_updateFirst_find? (fun u => u.id == req.senderId)
      (debit req.amount) sender users hsender v hv with hmem | rfl
    · exact h v hmem
    · show 0 ≤ sender.balance - req.amount
      omega
  intro u hu
  rcases mem_updateFirst (fun u => u.accountNumber == req.recipientAccountNumber)
    (credit req.amount) _ u hu with hmem | ⟨v, hv, rfl⟩
  · exact h1 u hmem
  · have := h1 v hv
    show 0 ≤ v.balance + req.amount
    omega

/-- The transfer route preserves non-negativity of all balances, on every
path, including the partial-commit persistence-failure path. -/
theorem sendTransfer_nonneg (st : ServerState) (req : TransferRequest)
    (txId ts : String) (wU wT : Bool)
    (h : ∀ u ∈ st.users, 0 ≤ u.balance) :
    ∀ u ∈ (sendTransfer st req txId ts wU wT).2.users, 0 ≤ u.balance := by
  unfold sendTransfer
  split
  · exact h
  · next hvalid =>
    split
    · exact h
    · split
      · exact h
      · next sender hsender =>
        split
        · exact h
        · next _recipient _hrecipient =>
          split
          · exact h
          · next hbal =>
            have hamt : 0 < req.amount := by
              push_neg at hvalid
              exact hvalid.2.2
            split
            · split
              · exact transfer_users_nonneg st.users req sender hsender hbal
                  hamt h
              · exact transfer_users_nonneg st.users req sender hsender hbal
                  hamt h
            · exact h

/-- The fund route preserves non-negativity of all balances. -/
theorem fundUser_nonneg (st : ServerState) (req : FundRequest)
    (txId ts : String) (wU wT : Bool)
    (h : ∀ u ∈ st.users, 0 ≤ u.balance) :
    ∀ u ∈ (fundUser st req txId ts wU wT).2.users, 0 ≤ u.balance := by
  unfold fundUser
  split
  · exact h
  · next hvalid =>
    have hamt : 0 < req.amount := by
      push_neg at hvalid
      exact hvalid.2.2
    split
    · exact h
    · next _admin _hadmin =>
      split
      · exact h
      · next _user _huser =>
        have hcred : ∀ u ∈ updateFirst
            (fun v => v.accountNumber == req.accountNumber)
            (credit req.amount) st.users, 0 ≤ u.balance := by
          intro u hu
          rcases mem_updateFirst (fun v => v.accountNumber == req.accountNumber)
            (credit req.amount) st.users u hu with hmem | ⟨v, hv, rfl⟩
          · exact h u hmem
          · have := h v hv
            show 0 ≤ v.balance + req.amount
            omega
        split
        · split
          · exact hcred
          · exact hcred
        · exact h

/-- Registration preserves non-negativity: the new account starts at 0. -/
theorem register_nonneg (st : ServerState) (req : RegisterRequest)
    (newId acctNum ts : String) (w : Bool)
    (h : ∀ u ∈ st.users, 0 ≤ u.balance) :
    ∀ u ∈ (register st req newId acctNum ts w).2.users, 0 ≤ u.balance := by
  unfold register
  split
  · exact h
  · split
    · exact h
    · split
      · intro u hu
        rcases List.mem_append.1 hu with hmem | hmem
        · exact h u hmem
        · rw [List.mem_singleton] at hmem
          subst hmem
          exact le_refl 0
      · exact h

/-- Deletion preserves non-negativity: the survivors are a sublist. -/
theorem deleteUser_nonneg (st : ServerState) (targetId : String) (w : Bool)
    (h : ∀ u ∈ st.users, 0 ≤ u.balance) :
    ∀ u ∈ (deleteUser st targetId w).2.users, 0 ≤ u.balance := by
  unfold deleteUser
  split
  · exact h
  · split
    · exact h
    · split
      · intro u hu
        exact h u ((removeFirst_sublist (fun v => v.id == targetId)
          st.users).subset hu)
      · exact h

/-- C2: in every state reachable from the seeded initial state by any
sequence of register, transfer, fund and delete operations, every account's
balance is non-negative: registration initializes the balance to 0, a
transfer is rejected when the sender's balance is below the amount, and fund
only credits a positive amount. -/
theorem c2_balances_nonneg (st : ServerState) (h : Reachable st) :
    ∀ u ∈ st.users, 0 ≤ u.balance := by
  induction h with
  | seed ts =>
    intro u hu
    have he : u = seedAdmin ts := by simpa [seedState] using hu
    rw [he]
    show (0 : Int) ≤ 500000000
    decide
  | registerStep st req newId acctNum ts w hst hfresh ih =>
    exact register_nonneg st req newId acctNum ts w ih
  | transferStep st req txId ts wU wT hst ih =>
    exact sendTransfer_nonneg st req txId ts wU wT ih
  | fundStep st req txId ts wU wT hst ih =>
    exact fundUser_nonneg st req txId ts wU wT ih
  | deleteStep st targetId w hst ih =>
    exact deleteUser_nonneg st targetId w ih

/-- Witness for C2: the invariant instantiated at the seeded state and its
admin account. -/
theorem c2_witness : 0 ≤ (seedAdmin ts0).balance :=
  c2_balances_nonneg (seedState ts0) (Reachable.seed ts0) (seedAdmin ts0)
    (by decide)

/-! ## C9: uniqueness of account numbers and emails in all reachable
states -/

/-- The transfer route never changes any projection of the accounts other
than the balance, on every path. -/
theorem sendTransfer_users_map (st : ServerState) (req : TransferRequest)
    (txId ts : String) (wU wT : Bool) (m : Account → String)
    (hmd : ∀ x, m (debit req.amount x) = m x)
    (hmc : ∀ x, m (credit req.amount x) = m x) :
    (sendTransfer st req txId ts wU wT).2.users.map m = st.users.map m := by
  unfold sendTransfer
  split
  · rfl
  · split
    · rfl
    · split
      · rfl
      · split
        · rfl
        · split
          · rfl
          · split
            · split
              · exact (map_updateFirst m
                  (fun u => u.accountNumber == req.recipientAccountNumber)
                  (credit req.amount) hmc _).trans
                  (map_updateFirst m (fun u => u.id == req.senderId)
                    (debit req.amount) hmd st.users)
              · exact (map_updateFirst m
                  (fun u => u.accountNumber == req.recipientAccountNumber)
                  (credit req.amount) hmc _).trans
                  (map_updateFirst m (fun u => u.id == req.senderId)
                    (debit req.amount) hmd st.users)
            · rfl

/-- The fund route never changes any projection of the accounts other than
the balance, on every path. -/
theorem fundUser_users_map (st : ServerState) (req : FundRequest)
    (txId ts : String) (wU wT : Bool) (m : Account → String)
    (hmc : ∀ x, m (credit req.amount x) = m x) :
    (fundUser st req txId ts wU wT).2.users.map m = st.users.map m := by
  unfold fundUser
  split
  · rfl
  · split
    · rfl
    · split
      · rfl
      · split
        · split
          · exact map_updateFirst m
              (fun u => u.accountNumber == req.accountNumber)
              (credit req.amount) hmc st.users
          · exact map_updateFirst m
              (fun u => u.accountNumber == req.accountNumber)
              (credit req.amount) hmc st.users
        · rfl

/-- C9: in every state reachable from the seeded initial state, the account
numbers of all accounts are pairwise distinct and the emails of all accounts
are pairwise distinct: registration rejects an existing email and the
allocator loop only returns a number absent from the existing set. -/
theorem c9_uniqueness (st : ServerState) (h : Reachable st) :
    (st.users.map (fun u => u.accountNumber)).Nodup ∧
    (st.users.map (fun u => u.email)).Nodup := by
  induction h with
  | seed ts => exact ⟨by simp [seedState], by simp [seedState]⟩
  | registerStep st req newId acctNum ts w hst hfresh ih =>
    unfold register
    split
    · exact ih
    · split
      · exact ih
      · next hdup =>
        split
        · constructor
          · show ((st.users ++ [mkNewUser req newId acctNum ts]).map
              (fun u => u.accountNumber)).Nodup
            rw [List.map_append]
            refine nodup_append_single ih.1 ?_
            intro hmem
            obtain ⟨u, hu, he⟩ := List.mem_map.1 hmem
            exact hfresh u hu he
          · show ((st.users ++ [mkNewUser req newId acctNum ts]).map
              (fun u => u.email)).Nodup
            rw [List.map_append]
            refine nodup_append_single ih.2 ?_
            intro hmem
            obtain ⟨u, hu, he⟩ := List.mem_map.1 hmem
            exact hdup (List.any_eq_true.2 ⟨u, hu, beq_iff_eq.2 he⟩)
        · exact ih
  | transferStep st req txId ts wU wT hst ih =>
    constructor
    · rw [sendTransfer_users_map st req txId ts wU wT
        (fun u => u.accountNumber) (fun _ => rfl) (fun _ => rfl)]
      exact ih.1
    · rw [sendTransfer_users_map st req txId ts wU wT (fun u => u.email)
        (fun _ => rfl) (fun _ => rfl)]
      exact ih.2
  | fundStep st req txId ts wU wT hst ih =>
    constructor
    · rw [fundUser_users_map st req txId ts wU wT (fun u => u.accountNumber)
        (fun _ => rfl)]
      exact ih.1
    · rw [fundUser_users_map st req txId ts wU wT (fun u => u.email)
        (fun _ => rfl)]
      exact ih.2
  | deleteStep st targetId w hst ih =>
    unfold deleteUser
    split
    · exact ih
    · split
      · exact ih
      · split
        · constructor
          · exact List.Nodup.sublist
              ((removeFirst_sublist (fun v => v.id == targetId) st.users).map
                (fun u => u.accountNumber)) ih.1
          · exact List.Nodup.sublist
              ((removeFirst_sublist (fun v => v.id == targetId) st.users).map
                (fun u => u.email)) ih.2
        · exact ih

/-- Witness for C9: the uniqueness invariant instantiated at the seeded
state. -/
theorem c9_witness :
    ((seedState ts0).users.map (fun u => u.accountNumber)).Nodup :=
  (c9_uniqueness (seedState ts0) (Reachable.seed ts0)).1

end Boa
